import Mathlib

/-!
# Verification of the number-line discrete-magnitude value field engine

Shallow embedding of the TypeScript sources of the `number-line` repository
(`src/ladder/engine.ts`, `src/ladder/stepper.ts`, `src/ladder/particles.ts`,
`src/ladder/format.ts`, `src/main.ts`) and proofs of the specification's
testable properties.

JS `number` arithmetic is modelled over `ℚ` (exact rational arithmetic);
all relevant source computations (clamps, floors, linear maps, count
formulas, easing polynomials) are exact in `ℚ`.  Group scale factors of the
form `10^x` are represented by their exponent `x : ℚ` ("scaleExp"); since
`x ↦ 10^x` is strictly monotone, equality/inequality of scales is
equivalent to equality/inequality of exponents.
-/

namespace NumberLineSpec

/-- `clamp(v, lo, hi) = Math.min(Math.max(v, lo), hi)` from
`src/ladder/particles.ts` (an identical helper is imported from
`lib/number-line` by `src/main.ts`). -/
def clampQ (v lo hi : ℚ) : ℚ := min (max v lo) hi

/-- `clampInt(v, lo, hi) = Math.min(Math.max(v, lo), hi)` from
`src/ladder/particles.ts` (inputs are integral at every call site). -/
def clampInt (v lo hi : ℤ) : ℤ := min (max v lo) hi

/-- JS `Math.trunc`: rounds toward zero. -/
def jsTrunc (q : ℚ) : ℤ := if 0 ≤ q then ⌊q⌋ else ⌈q⌉

/-!
## Coordinate mapper: `createLadderEngine` (src/ladder/engine.ts)

The `NumberLine` class itself lives in `lib/number-line`, which is not part
of the provided sources; only its callers are.  Its observable state
(`unitLength`, `unitValue`, `displacement`) and the `valueAt` formula are
modelled from the spec (§4.1 CoordinateMapping) and from the source
comments:

* `src/ladder/engine.ts` line 15: "unitValue = 10^(k-1), unitLength =
  width/20", line 43: "Map values exactly: x=0 => -10^k, x=width/2 => 0,
  x=width => +10^k" with `numberLine.panTo(-safeWidth / 2)` setting the
  displacement;
* `src/main.ts` line 451: "valueAt(pos) = (pos + displacement) /
  (unitLength/unitValue)".
-/

/-- The `LadderEngine` record of `src/ladder/engine.ts`, with the embedded
`NumberLine` flattened to its three observable mapping parameters.
Modelled from the spec: the `NumberLine` fields `unitLength`, `unitValue`,
`displacement` (the class is in `lib/number-line`, absent from src). -/
structure LadderEngine where
  width : ℚ
  k : ℤ
  maxAbsValue : ℚ
  unitValue : ℚ
  unitLength : ℚ
  displacement : ℚ
  deriving DecidableEq, Repr

/-- `createLadderEngine(k, width)` from `src/ladder/engine.ts`:
`safeWidth = Math.max(1, Math.floor(width))`, `maxAbsValue = 10^k`,
`unitValue = k === 0 ? 0.1 : 10^(k-1)`, `unitLength = safeWidth/20`,
and `panTo(-safeWidth/2)` sets the displacement.  The source performs no
validation of `k`: the function is total (no throw path), so negative `k`
is silently accepted via `Math.pow(10, k)` (modelled with `zpow`). -/
def createLadderEngine (k : ℤ) (width : ℚ) : LadderEngine :=
  let safeWidth : ℚ := max 1 (⌊width⌋ : ℚ)
  { width := safeWidth
    k := k
    maxAbsValue := (10 : ℚ) ^ k
    unitValue := if k = 0 then 1/10 else (10 : ℚ) ^ (k - 1)
    unitLength := safeWidth / 20
    displacement := -(safeWidth / 2) }

/-- Modelled from the spec: `NumberLine.valueAt(pos)` =
`(pos + displacement) / (unitLength/unitValue)` (formula documented at
`src/main.ts` line 451; the class body is in `lib/number-line`, absent
from src). -/
def valueAt (e : LadderEngine) (x : ℚ) : ℚ :=
  (x + e.displacement) / (e.unitLength / e.unitValue)

/-- `valueToXWithEngine(value, eng)` from `src/main.ts` lines 450-455:
`pos = value*(unitLength/unitValue) - displacement`. -/
def valueToXWithEngine (value : ℚ) (e : LadderEngine) : ℚ :=
  let ratio := e.unitLength / e.unitValue
  value * ratio - e.displacement

lemma createLadderEngine_width_pos (k : ℤ) (w : ℚ) :
    0 < (createLadderEngine k w).width := by
  have h : (1 : ℚ) ≤ max 1 (⌊w⌋ : ℚ) := le_max_left _ _
  have h2 := lt_of_lt_of_le one_pos h
  simp only [createLadderEngine]
  exact h2

lemma createLadderEngine_unitLength_pos (k : ℤ) (w : ℚ) :
    0 < (createLadderEngine k w).unitLength := by
  have h := createLadderEngine_width_pos k w
  simp only [createLadderEngine] at h ⊢
  linarith

lemma createLadderEngine_unitValue_pos (k : ℤ) (w : ℚ) :
    0 < (createLadderEngine k w).unitValue := by
  simp only [createLadderEngine]
  split
  · norm_num
  · exact zpow_pos (by norm_num) _

lemma createLadderEngine_ratio_pos (k : ℤ) (w : ℚ) :
    0 < (createLadderEngine k w).unitLength / (createLadderEngine k w).unitValue := by
  apply div_pos
  · have h := createLadderEngine_width_pos k w
    simp only [createLadderEngine] at h ⊢
    linarith
  · exact createLadderEngine_unitValue_pos k w

end NumberLineSpec

namespace NumberLineSpec

/-- C2: for every level `k` and width, `positionFor` and `valueAt` are exact
affine inverses with no clamping inside the mapper: both round trips are
exact identities (in exact rational arithmetic, hence a fortiori within
floating-point epsilon), for every pixel offset `x` and every value `v` —
in particular on the claimed ranges `[0, viewportWidth]` and
`[-10^k, 10^k]`. -/
theorem mapper_round_trip (k : ℤ) (w x v : ℚ) :
    valueToXWithEngine (valueAt (createLadderEngine k w) x) (createLadderEngine k w) = x ∧
    valueAt (createLadderEngine k w) (valueToXWithEngine v (createLadderEngine k w)) = v := by
  have hL := ne_of_gt (createLadderEngine_unitLength_pos k w)
  have hU := ne_of_gt (createLadderEngine_unitValue_pos k w)
  set e := createLadderEngine k w
  constructor
  · simp only [valueAt, valueToXWithEngine]
    field_simp
  · simp only [valueAt, valueToXWithEngine]
    field_simp
    ring

/-- C3: the mapping built by `createLadderEngine(k, width)` maps value `0`
exactly to the horizontal center (`width/2`, equivalently
`valueAt(width/2) = 0`) and maps the endpoints `∓10^k` exactly to positions
`0` and `width` (the engine's viewport width, `safeWidth`), so the full
range exactly fills the viewport. -/
theorem mapper_centering (k : ℤ) (w : ℚ) :
    valueToXWithEngine 0 (createLadderEngine k w) = (createLadderEngine k w).width / 2 ∧
    valueAt (createLadderEngine k w) ((createLadderEngine k w).width / 2) = 0 ∧
    valueToXWithEngine (-(10 : ℚ) ^ k) (createLadderEngine k w) = 0 ∧
    valueToXWithEngine ((10 : ℚ) ^ k) (createLadderEngine k w) = (createLadderEngine k w).width := by
  have hpow : ((10 : ℚ) ^ k) * ((createLadderEngine k w).unitLength /
      (createLadderEngine k w).unitValue) = (createLadderEngine k w).width / 2 := by
    simp only [createLadderEngine]
    split
    · subst ‹k = 0›
      norm_num
      ring
    · rename_i hk
      have h10 : (10 : ℚ) ≠ 0 := by norm_num
      have hk1 : k - (k - 1) = 1 := by ring
      calc (10:ℚ) ^ k * ((max 1 (⌊w⌋ : ℚ)) / 20 / (10:ℚ) ^ (k - 1))
          = ((10:ℚ) ^ k / (10:ℚ) ^ (k - 1)) * ((max 1 (⌊w⌋ : ℚ)) / 20) := by ring
        _ = (10:ℚ) ^ (k - (k - 1)) * ((max 1 (⌊w⌋ : ℚ)) / 20) := by
              rw [zpow_sub₀ h10 k (k - 1)]
        _ = (max 1 (⌊w⌋ : ℚ)) / 2 := by rw [hk1]; ring
  refine ⟨?_, ?_, ?_, ?_⟩
  · simp [valueToXWithEngine, createLadderEngine]
  · simp [valueAt, createLadderEngine]
  · simp only [valueToXWithEngine, neg_mul]
    rw [hpow]
    simp [createLadderEngine]
  · simp only [valueToXWithEngine]
    rw [hpow]
    simp only [createLadderEngine]
    ring

end NumberLineSpec

namespace NumberLineSpec

/-!
## Block counts: `applyCounts` (src/ladder/particles.ts lines 552-562) and
the CPU 2D fallback count computation (`renderFrame2D`, lines 884-889)
-/

/-- The `BlockParams` record of `src/ladder/particles.ts`. -/
structure BlockParams where
  width : ℚ
  height : ℚ
  k : ℕ
  midX : ℚ
  ballAx : ℚ
  ballBx : ℚ
  valueA : ℚ
  valueB : ℚ
  deriving DecidableEq, Repr

/-- `applyCounts` from `renderFrame` (src/ladder/particles.ts lines
552-562), returning `(negCount, posCount)`:
`unitPow = Math.max(0, p.k - 4)` (here `p.k - 4` is ℕ-truncated
subtraction, which equals `max 0 (k-4)`), `unitValue = 10^unitPow`,
`negValue = Math.min(valueA, valueB, 0)`,
`posValue = Math.max(valueA, valueB, 0)`,
`count = clampInt(Math.floor(Math.abs(Math.trunc(value)) / unitValue), 0, 10000)`. -/
def applyCountsPair (p : BlockParams) : ℤ × ℤ :=
  let unitValue : ℚ := (10 : ℚ) ^ (p.k - 4)
  let negValue : ℚ := min (min p.valueA p.valueB) 0
  let posValue : ℚ := max (max p.valueA p.valueB) 0
  let negCount := clampInt ⌊(((jsTrunc negValue).natAbs : ℚ)) / unitValue⌋ 0 10000
  let posCount := clampInt ⌊(((jsTrunc posValue).natAbs : ℚ)) / unitValue⌋ 0 10000
  (negCount, posCount)

/-- The base count computation of the CPU 2D fallback, `renderFrame2D`
(src/ladder/particles.ts lines 884-889): textually the same formula as
`applyCounts`, recomputed locally in the 2D path. -/
def counts2DPair (p : BlockParams) : ℤ × ℤ :=
  let unitValue : ℚ := (10 : ℚ) ^ (p.k - 4)
  let negValue : ℚ := min (min p.valueA p.valueB) 0
  let posValue : ℚ := max (max p.valueA p.valueB) 0
  let baseNegCount := clampInt ⌊(((jsTrunc negValue).natAbs : ℚ)) / unitValue⌋ 0 10000
  let basePosCount := clampInt ⌊(((jsTrunc posValue).natAbs : ℚ)) / unitValue⌋ 0 10000
  (baseNegCount, basePosCount)

/-- The spec's per-marker block-count formula (§8 Block count law, stated
in the claim): `clamp(floor(|trunc(v)| / 10^max(0,k-4)), 0, 10000)`.
This follows the spec's words, for comparison against the source's
`applyCounts`. -/
def specBlockCount (k : ℕ) (v : ℚ) : ℤ :=
  clampInt ⌊(((jsTrunc v).natAbs : ℚ)) / ((10 : ℚ) ^ (k - 4))⌋ 0 10000

end NumberLineSpec

namespace NumberLineSpec

/-- C1 counterexample: the renderer does not size each sign's population
from "every marker value of that sign" — it uses only the extremal marker.
With `k = 4`, `valueA = 5500`, `valueB = 3000` (both markers positive),
the positive population has 5500 active blocks, while the claimed formula
applied to the marker value `v = 3000` gives 3000. -/
theorem blockCount_per_marker_counterexample :
    (applyCountsPair ⟨800, 400, 4, 400, 0, 0, 5500, 3000⟩).2 = 5500 ∧
    specBlockCount 4 3000 = 3000 ∧
    (applyCountsPair ⟨800, 400, 4, 400, 0, 0, 5500, 3000⟩).2 ≠ specBlockCount 4 3000 := by
  have h1 : (applyCountsPair ⟨800, 400, 4, 400, 0, 0, 5500, 3000⟩).2 = 5500 := by
    norm_num [applyCountsPair, jsTrunc, clampInt]
  have h2 : specBlockCount 4 3000 = 3000 := by
    norm_num [specBlockCount, jsTrunc, clampInt]
  exact ⟨h1, h2, by rw [h1, h2]; decide⟩

/-- C1 (amended): for every level `k` and marker values, the negative
population is sized by the claimed formula applied to
`min(valueA, valueB, 0)` and the positive population by the formula
applied to `max(valueA, valueB, 0)` — `clamp(floor(|trunc(v)| /
10^max(0,k-4)), 0, 10000)`, so each population is sized with unit
`10^max(0,k-4)` (in particular `k=4, v=5500 ↦ 5500` blocks and `k=8,
v=55,000,000 ↦ 5500` blocks, and a marker's own count matches the formula
whenever it is the extremal value of its sign, e.g. in symmetric mode);
the GPU path and the CPU 2D fallback compute identical counts. -/
theorem blockCount_law (p : BlockParams) :
    applyCountsPair p =
      (specBlockCount p.k (min (min p.valueA p.valueB) 0),
       specBlockCount p.k (max (max p.valueA p.valueB) 0)) ∧
    counts2DPair p = applyCountsPair p ∧
    specBlockCount 4 5500 = 5500 ∧
    specBlockCount 8 55000000 = 5500 := by
  refine ⟨rfl, rfl, ?_, ?_⟩ <;> norm_num [specBlockCount, jsTrunc, clampInt]

end NumberLineSpec

namespace NumberLineSpec

/-!
## Level validation: `createLadderEngine` vs `pow10BigInt`
(src/ladder/engine.ts lines 11-17, src/ladder/format.ts / part_009
lines 24-29)
-/

/-- `pow10BigInt(k)` from the formatting module (part_009 lines 24-29):
`if (!Number.isInteger(k) || k < 0) throw ...` else returns `10n^k`.
Integrality of `k` is enforced here by the type `ℤ`; the throw on a
negative `k` is modelled as `Except.error`. -/
def pow10BigInt (k : ℤ) : Except String ℤ :=
  if k < 0 then .error "k must be a non-negative integer"
  else .ok ((10 : ℤ) ^ k.toNat)

/-- C8 counterexample: `createLadderEngine` contains no validation and no
throw path — it is a total function.  Passing the negative level `k = -1`
is silently accepted and coerced via `Math.pow(10, k)`: the call returns a
well-formed engine with `maxAbsValue = 10^(-1) = 1/10` instead of being
rejected. -/
theorem createLadderEngine_accepts_negative_k :
    (createLadderEngine (-1) 500).maxAbsValue = 1/10 ∧
    (createLadderEngine (-1) 500).k = -1 ∧
    (createLadderEngine (-1) 500).width = 500 := by
  refine ⟨?_, rfl, by norm_num [createLadderEngine]⟩
  show (10 : ℚ) ^ (-1 : ℤ) = 1/10
  norm_num

/-- C8 (amended): the Coordinate Mapper does not fail loudly — for every
negative `k` it silently returns an engine whose range is the coerced
`10^k`; the reject/throw behavior for a negative (or non-integer) level
exists only in the formatting helper `pow10BigInt`, which errors exactly
on `k < 0` and returns `10^k` otherwise. -/
theorem negative_level_handling (k : ℤ) (w : ℚ) (hk : k < 0) :
    (createLadderEngine k w).maxAbsValue = (10 : ℚ) ^ k ∧
    (pow10BigInt k).isOk = false ∧
    ∀ k' : ℤ, 0 ≤ k' → pow10BigInt k' = .ok ((10 : ℤ) ^ k'.toNat) := by
  refine ⟨rfl, ?_, ?_⟩
  · simp only [pow10BigInt, if_pos hk]
    rfl
  · intro k' hk'
    simp [pow10BigInt, not_lt.mpr hk']

/-- Witness for `negative_level_handling` at `k = -1`, `w = 500`. -/
theorem negative_level_handling_witness :
    (-1 : ℤ) < 0 ∧ (createLadderEngine (-1) 500).maxAbsValue = (10 : ℚ) ^ (-1 : ℤ) :=
  ⟨by decide, (negative_level_handling (-1) 500 (by decide)).1⟩

end NumberLineSpec

namespace NumberLineSpec

/-!
## Magnitude Stepper: `DiscreteStepper` (src/ladder/stepper.ts, part_002)
-/

/-- The mutable state of `DiscreteStepper` (part_002 lines 5-11).
`rafId` (a scheduling handle) carries no observable state and is omitted. -/
structure StepperState where
  running : Bool
  currentK : ℤ
  targetK : ℤ
  lastStepAt : ℚ
  stepMs : ℚ
  deriving DecidableEq, Repr

/-- `setStepMs(stepMs)` (part_002 lines 23-25):
`this.stepMs = Math.max(0, Math.floor(stepMs))`. -/
def setStepMs (st : StepperState) (ms : ℚ) : StepperState :=
  { st with stepMs := max 0 (⌊ms⌋ : ℚ) }

/-- `requestTo(targetK)` (part_002 lines 37-41): always updates the target
in place; if not already running, starts running with
`lastStepAt = performance.now()`.  (The per-tick behavior of the scheduled
closure is `tick` below.) -/
def requestTo (st : StepperState) (targetK : ℤ) (now : ℚ) : StepperState :=
  if st.running then { st with targetK := targetK }
  else { st with targetK := targetK, running := true, lastStepAt := now }

/-- One execution of the rAF `tick` closure of `requestTo` (part_002 lines
42-56), at timestamp `t`: returns the updated state together with the
level passed to the `onStep` callback on this tick (if any).
`dir = Math.sign(targetK - currentK)`; if `dir = 0` the stepper stops;
otherwise if `t - lastStepAt >= stepMs` it advances `currentK` by `dir`,
announces the new level and records `lastStepAt = t`. -/
def tick (st : StepperState) (t : ℚ) : StepperState × Option ℤ :=
  if st.running = false then (st, none)
  else
    let dir := (st.targetK - st.currentK).sign
    if dir = 0 then ({ st with running := false }, none)
    else if st.stepMs ≤ t - st.lastStepAt then
      let k' := st.currentK + dir
      ({ st with currentK := k', lastStepAt := t }, some k')
    else (st, none)

/-- Iterate `tick` over a list of frame timestamps, collecting the levels
announced to `onStep`, in order. -/
def runTicks (st : StepperState) (ts : List ℚ) : StepperState × List ℤ :=
  match ts with
  | [] => (st, [])
  | t :: rest =>
    let s := tick st t
    let r := runTicks s.1 rest
    (r.1, s.2.toList ++ r.2)

lemma sign_step_natAbs (a b : ℤ) (h : a ≠ b) :
    (b - (a + (b - a).sign)).natAbs = (b - a).natAbs - 1 := by
  rcases lt_trichotomy a b with hlt | heq | hgt
  · have hs : (b - a).sign = 1 := Int.sign_eq_one_iff_pos.mpr (by omega)
    rw [hs]; omega
  · exact absurd heq h
  · have hs : (b - a).sign = -1 := Int.sign_eq_neg_one_iff_neg.mpr (by omega)
    rw [hs]; omega

/-- The strictly monotone integer path from `a` (exclusive) to `b`
(inclusive): the exact sequence of levels a step-by-step traversal
announces. -/
def pathList (a b : ℤ) : List ℤ :=
  if h : a = b then []
  else (a + (b - a).sign) :: pathList (a + (b - a).sign) b
termination_by (b - a).natAbs
decreasing_by
  have := sign_step_natAbs a b h
  have hne : (b - a).natAbs ≠ 0 := by
    intro h0
    exact h (by omega)
  omega

lemma pathList_self (a : ℤ) : pathList a a = [] := by
  rw [pathList]
  simp

lemma pathList_cons (a b : ℤ) (h : a ≠ b) :
    pathList a b = (a + (b - a).sign) :: pathList (a + (b - a).sign) b := by
  rw [pathList]
  simp [h]

lemma pathList_mem_between (a b : ℤ) :
    ∀ c ∈ pathList a b, (a < c ∧ c ≤ b) ∨ (b ≤ c ∧ c < a) := by
  by_cases h : a = b
  · subst h
    simp [pathList_self]
  · rw [pathList_cons a b h]
    intro c hc
    rcases List.mem_cons.mp hc with hc | hc
    · subst hc
      rcases lt_trichotomy a b with hlt | heq | hgt
      · left
        have hs : (b - a).sign = 1 := Int.sign_eq_one_iff_pos.mpr (by omega)
        rw [hs]; omega
      · exact absurd heq h
      · right
        have hs : (b - a).sign = -1 := Int.sign_eq_neg_one_iff_neg.mpr (by omega)
        rw [hs]; omega
    · have ih := pathList_mem_between (a + (b - a).sign) b c hc
      rcases lt_trichotomy a b with hlt | heq | hgt
      · have hs : (b - a).sign = 1 := Int.sign_eq_one_iff_pos.mpr (by omega)
        rw [hs] at ih
        omega
      · exact absurd heq h
      · have hs : (b - a).sign = -1 := Int.sign_eq_neg_one_iff_neg.mpr (by omega)
        rw [hs] at ih
        omega
termination_by (b - a).natAbs
decreasing_by
  have := sign_step_natAbs a b h
  have hne : (b - a).natAbs ≠ 0 := by
    intro h0
    exact h (by omega)
  omega

lemma pathList_nodup (a b : ℤ) : (pathList a b).Nodup := by
  by_cases h : a = b
  · subst h
    simp [pathList_self]
  · rw [pathList_cons a b h]
    refine List.nodup_cons.mpr ⟨?_, pathList_nodup (a + (b - a).sign) b⟩
    intro hmem
    have hb := pathList_mem_between (a + (b - a).sign) b _ hmem
    omega
termination_by (b - a).natAbs
decreasing_by
  have := sign_step_natAbs a b h
  have hne : (b - a).natAbs ≠ 0 := by
    intro h0
    exact h (by omega)
  omega

lemma runTicks_zero_interval (st : StepperState) (ts : List ℚ)
    (hrun : st.running = true) (hms : st.stepMs = 0)
    (hsorted : ts.Pairwise (· ≤ ·)) (hge : ∀ t ∈ ts, st.lastStepAt ≤ t)
    (hlen : ts.length = (st.targetK - st.currentK).natAbs) :
    (runTicks st ts).2 = pathList st.currentK st.targetK ∧
    (runTicks st ts).1.currentK = st.targetK := by
  induction ts generalizing st with
  | nil =>
    have : st.targetK = st.currentK := by
      have : (st.targetK - st.currentK).natAbs = 0 := by simpa using hlen.symm
      omega
    simp [runTicks, this, pathList_self]
  | cons t rest ih =>
    have hne : st.currentK ≠ st.targetK := by
      intro he
      rw [← he] at hlen
      simp at hlen
    have hsign : (st.targetK - st.currentK).sign ≠ 0 := by
      simp only [ne_eq, Int.sign_eq_zero_iff_zero]
      omega
    have htick : tick st t =
        ({ st with currentK := st.currentK + (st.targetK - st.currentK).sign,
                   lastStepAt := t },
         some (st.currentK + (st.targetK - st.currentK).sign)) := by
      have h0 : st.stepMs ≤ t - st.lastStepAt := by
        rw [hms]
        have := hge t (List.mem_cons_self t rest)
        linarith
      simp [tick, hrun, hsign, h0]
    set st' : StepperState :=
      { st with currentK := st.currentK + (st.targetK - st.currentK).sign,
                lastStepAt := t } with hst'
    have hrest := ih st' hrun hms (List.Pairwise.of_cons hsorted)
      (fun u hu => List.rel_of_pairwise_cons hsorted hu)
      (by
        show rest.length = (st.targetK - (st.currentK + (st.targetK - st.currentK).sign)).natAbs
        have := sign_step_natAbs st.currentK st.targetK hne
        have hlen' : rest.length + 1 = (st.targetK - st.currentK).natAbs := by
          simpa using hlen
        omega)
    constructor
    · show (runTicks st (t :: rest)).2 = _
      simp only [runTicks, htick]
      rw [pathList_cons st.currentK st.targetK hne]
      simp [hrest.1]
    · show (runTicks st (t :: rest)).1.currentK = _
      simp only [runTicks, htick]
      exact hrest.2

end NumberLineSpec

namespace NumberLineSpec

/-- C4: (i) whenever a tick announces a level, the current level advanced
by exactly ±1; (ii) on any tick where the stepper is running, the target
differs from the current level and the elapsed time since the last step is
at least the configured interval, the level advances by exactly
`sign(target - current)` and that new level is announced to the callback;
(iii) `requestTo` installs the requested target; and (iv) with interval 0
and nondecreasing frame timestamps, a full run of `|target - start|` ticks
visits and announces every intermediate integer level from start to
target, in order, each exactly once (the announced list is the duplicate-
free path from start to target, and the final level is the target). -/
theorem stepper_steps_discretely :
    (∀ (st : StepperState) (t : ℚ) (k' : ℤ), (tick st t).2 = some k' →
      (k' = st.currentK + 1 ∨ k' = st.currentK - 1) ∧ (tick st t).1.currentK = k') ∧
    (∀ (st : StepperState) (t : ℚ), st.running = true → st.targetK ≠ st.currentK →
      st.stepMs ≤ t - st.lastStepAt →
      (tick st t).2 = some (st.currentK + (st.targetK - st.currentK).sign) ∧
      (tick st t).1.currentK = st.currentK + (st.targetK - st.currentK).sign) ∧
    (∀ (st : StepperState) (target : ℤ) (now : ℚ),
      (requestTo st target now).targetK = target) ∧
    (∀ (st : StepperState) (ts : List ℚ), st.running = true → st.stepMs = 0 →
      ts.Pairwise (· ≤ ·) → (∀ t ∈ ts, st.lastStepAt ≤ t) →
      ts.length = (st.targetK - st.currentK).natAbs →
      (runTicks st ts).2 = pathList st.currentK st.targetK ∧
      (runTicks st ts).1.currentK = st.targetK ∧
      (pathList st.currentK st.targetK).Nodup) := by
  refine ⟨?_, ?_, ?_, ?_⟩
  · intro st t k' hk
    simp only [tick] at hk ⊢
    by_cases hrun : st.running = false
    · simp [hrun] at hk
    · simp only [hrun, if_false] at hk ⊢
      by_cases hsign : (st.targetK - st.currentK).sign = 0
      · simp [hsign] at hk
      · simp only [hsign, if_false] at hk ⊢
        by_cases hms : st.stepMs ≤ t - st.lastStepAt
        · simp only [hms, if_true] at hk ⊢
          have hk' : k' = st.currentK + (st.targetK - st.currentK).sign := by
            simpa using hk.symm
          subst hk'
          refine ⟨?_, rfl⟩
          rcases lt_trichotomy (st.targetK - st.currentK) 0 with h | h | h
          · right; rw [Int.sign_eq_neg_one_iff_neg.mpr h]; omega
          · exact absurd (Int.sign_eq_zero_iff_zero.mpr h) hsign
          · left; rw [Int.sign_eq_one_iff_pos.mpr h]
        · simp [hms] at hk
  · intro st t hrun hne hms
    have hsign : (st.targetK - st.currentK).sign ≠ 0 := by
      simp only [ne_eq, Int.sign_eq_zero_iff_zero]
      omega
    simp [tick, hrun, hsign, hms]
  · intro st target now
    by_cases h : st.running <;> simp [requestTo, h]
  · intro st ts hrun hms hsorted hge hlen
    have h := runTicks_zero_interval st ts hrun hms hsorted hge hlen
    exact ⟨h.1, h.2, pathList_nodup _ _⟩

/-- Witness for `stepper_steps_discretely`: starting at level 0 with
target 3, interval 0 and timestamps `[0, 1, 2]`, the stepper announces
exactly `pathList 0 3` and ends at level 3; also a concrete single tick
announces `0 + sign(3 - 0) = 1`. -/
theorem stepper_steps_discretely_witness :
    (runTicks ⟨true, 0, 3, 0, 0⟩ [0, 1, 2]).2 = pathList 0 3 ∧
    (runTicks ⟨true, 0, 3, 0, 0⟩ [0, 1, 2]).1.currentK = 3 ∧
    (pathList 0 3).Nodup ∧
    (tick ⟨true, 0, 3, 0, 0⟩ 0).2 = some 1 ∧
    (requestTo ⟨false, 0, 0, 0, 0⟩ 3 0).targetK = 3 := by
  have hp : ([0, 1, 2] : List ℚ).Pairwise (· ≤ ·) := by
    norm_num [List.pairwise_cons]
  have hge : ∀ t ∈ ([0, 1, 2] : List ℚ), (StepperState.mk true 0 3 0 0).lastStepAt ≤ t := by
    intro t ht
    simp only [List.mem_cons, List.not_mem_nil, or_false] at ht
    rcases ht with h | h | h <;> (subst h; norm_num)
  have hrun := stepper_steps_discretely.2.2.2 ⟨true, 0, 3, 0, 0⟩ [0, 1, 2]
    rfl rfl hp hge (by simp)
  have htick := (stepper_steps_discretely.2.1 ⟨true, 0, 3, 0, 0⟩ 0
    rfl (by decide) (by norm_num)).1
  have hreq := stepper_steps_discretely.2.2.1 ⟨false, 0, 0, 0, 0⟩ 3 0
  refine ⟨hrun.1, hrun.2.1, hrun.2.2, ?_, hreq⟩
  simpa using htick

end NumberLineSpec

namespace NumberLineSpec

/-!
## Marker value clamping (src/main.ts)
-/

/-- The value-related part of the module `State` of `src/main.ts`. -/
structure MainState where
  k : ℕ
  symmetric : Bool
  valueA : ℚ
  valueB : ℚ
  deriving DecidableEq, Repr

/-- The clamping step of `render()` (src/main.ts lines 118-131): with
`max = engine.maxAbsValue` for the engine at the current level,
`valueA = clamp(valueA, -max, max)`; `valueB = -valueA` in symmetric mode,
else `valueB = clamp(valueB, -max, max)`.  Total — out-of-range inputs are
clamped, never rejected. -/
def renderClampStep (st : MainState) (w : ℚ) : MainState :=
  let m := (createLadderEngine (st.k : ℤ) w).maxAbsValue
  let a := clampQ st.valueA (-m) m
  let b := if st.symmetric then -a else clampQ st.valueB (-m) m
  { st with valueA := a, valueB := b }

/-- The stepper `onStep` callback (src/main.ts lines 69-97): on a level
change to `nextK`, with `toMax = toEngine.maxAbsValue`,
`toA = clamp(valueA, -toMax, toMax)`,
`toB = symmetric ? -toA : clamp(valueB, -toMax, toMax)`, and the state
adopts `nextK`, `toA`, `toB`. -/
def onStepUpdate (st : MainState) (nextK : ℕ) (w : ℚ) : MainState :=
  let toMax := (createLadderEngine (nextK : ℤ) w).maxAbsValue
  let toA := clampQ st.valueA (-toMax) toMax
  let toB := if st.symmetric then -toA else clampQ st.valueB (-toMax) toMax
  { st with k := nextK, valueA := toA, valueB := toB }

/-- The drag/tap value assignment (src/main.ts lines 519-539 and the
pointermove/touchmove handlers): the value read off the pointer position
is clamped to `[-maxAbsValue, maxAbsValue]` and assigned to the chosen
marker; in symmetric mode the B marker is then forced to `-valueA`. -/
def applyValueUpdate (st : MainState) (value : ℚ) (chosenB : Bool) (w : ℚ) : MainState :=
  let m := (createLadderEngine (st.k : ℤ) w).maxAbsValue
  let st₁ :=
    if chosenB then
      if st.symmetric then { st with valueA := clampQ (-value) (-m) m }
      else { st with valueB := clampQ value (-m) m }
    else { st with valueA := clampQ value (-m) m }
  if st.symmetric then { st₁ with valueB := -st₁.valueA } else st₁

lemma maxAbsValue_nonneg (k : ℤ) (w : ℚ) : 0 ≤ (createLadderEngine k w).maxAbsValue := by
  simp only [createLadderEngine]
  positivity

lemma abs_clampQ_le (v m : ℚ) (hm : 0 ≤ m) : |clampQ v (-m) m| ≤ m := by
  rw [abs_le]
  constructor
  · exact le_min (le_max_right _ _) (by linarith)
  · exact min_le_right _ _

end NumberLineSpec

namespace NumberLineSpec

lemma abs_le_max_of_clamp_or_neg (st : MainState) (m a b : ℚ) (hm : 0 ≤ m)
    (ha : a = clampQ st.valueA (-m) m)
    (hb : b = (if st.symmetric then -a else clampQ st.valueB (-m) m)) :
    |a| ≤ m ∧ |b| ≤ m := by
  have hA : |a| ≤ m := ha ▸ abs_clampQ_le _ _ hm
  refine ⟨hA, ?_⟩
  rw [hb]
  split
  · rw [abs_neg]; exact hA
  · exact abs_clampQ_le _ _ hm

/-- C7: after every value mutation (the drag assignment and the
render-pass clamping) and after every level change (stepper `onStep`),
both marker values satisfy `|value| ≤ maxAbsValue = 10^k` for the
then-current level `k`; each mutation is a total clamping function —
inputs outside `[-10^k, 10^k]` are silently clamped, never rejected. -/
theorem marker_clamp_invariant (st : MainState) (w : ℚ) (nextK : ℕ) (value : ℚ) (chosenB : Bool) :
    (|(renderClampStep st w).valueA| ≤ (createLadderEngine ((renderClampStep st w).k : ℤ) w).maxAbsValue ∧
     |(renderClampStep st w).valueB| ≤ (createLadderEngine ((renderClampStep st w).k : ℤ) w).maxAbsValue) ∧
    (|(onStepUpdate st nextK w).valueA| ≤ (createLadderEngine ((onStepUpdate st nextK w).k : ℤ) w).maxAbsValue ∧
     |(onStepUpdate st nextK w).valueB| ≤ (createLadderEngine ((onStepUpdate st nextK w).k : ℤ) w).maxAbsValue) ∧
    (st.symmetric = true →
      |(applyValueUpdate st value chosenB w).valueA| ≤ (createLadderEngine ((applyValueUpdate st value chosenB w).k : ℤ) w).maxAbsValue ∧
      (applyValueUpdate st value chosenB w).valueB = -(applyValueUpdate st value chosenB w).valueA ∧
      |(applyValueUpdate st value chosenB w).valueB| ≤ (createLadderEngine ((applyValueUpdate st value chosenB w).k : ℤ) w).maxAbsValue) ∧
    (st.symmetric = false →
      |(applyValueUpdate st value chosenB w).valueA| ≤ max |st.valueA| ((createLadderEngine ((applyValueUpdate st value chosenB w).k : ℤ) w).maxAbsValue) ∧
      |(applyValueUpdate st value chosenB w).valueB| ≤ max |st.valueB| ((createLadderEngine ((applyValueUpdate st value chosenB w).k : ℤ) w).maxAbsValue)) := by
  have hm0 : ∀ kk : ℤ, (0 : ℚ) ≤ (createLadderEngine kk w).maxAbsValue :=
    fun kk => maxAbsValue_nonneg kk w
  refine ⟨?_, ?_, ?_, ?_⟩
  · exact abs_le_max_of_clamp_or_neg st _ _ _ (hm0 _) rfl rfl
  · exact abs_le_max_of_clamp_or_neg st _ _ _ (hm0 _) rfl rfl
  · intro hsym
    simp only [applyValueUpdate, hsym, if_true]
    by_cases hcB : chosenB
    · simp only [hcB, if_true]
      refine ⟨abs_clampQ_le _ _ (hm0 _), trivial, ?_⟩
      rw [abs_neg]
      exact abs_clampQ_le _ _ (hm0 _)
    · simp only [hcB, if_false]
      refine ⟨abs_clampQ_le _ _ (hm0 _), trivial, ?_⟩
      rw [abs_neg]
      exact abs_clampQ_le _ _ (hm0 _)
  · intro hsym
    simp only [applyValueUpdate, hsym, if_false]
    by_cases hcB : chosenB
    · simp only [hcB, if_true]
      exact ⟨le_max_left _ _, le_trans (abs_clampQ_le _ _ (hm0 _)) (le_max_right _ _)⟩
    · simp only [hcB, if_false]
      exact ⟨le_trans (abs_clampQ_le _ _ (hm0 _)) (le_max_right _ _), le_max_left _ _⟩

end NumberLineSpec

namespace NumberLineSpec

/-!
## Ripple deformation boundedness (src/ladder/particles.ts)
-/

/-- The per-block base scale baked by `rebuildLayout`
(src/ladder/particles.ts lines 1004-1006, 1022-1023):
`cell = Math.max(2.2, cellH, cellW)`, `s = Math.max(1.6, cell * 0.84)`,
`s2 = atChunkEdge ? s * 0.74 : s`. -/
def blockBaseScale (cellH cellW : ℚ) (atChunkEdge : Bool) : ℚ :=
  let cell := max (max (11/5) cellH) cellW
  let s := max (8/5) (cell * (21/25))
  if atChunkEdge then s * (37/50) else s

/-- Ripple deformation of an *active* block (`updateRippleMatrices`,
src/ladder/particles.ts lines 601, 685, 701):
`s = base.s * (1 + clamp(w, -0.70, 1.05))`. -/
def activeWaveScale (baseS w : ℚ) : ℚ := baseS * (1 + clampQ w (-(7/10)) (21/20))

/-- Ripple deformation of a *base* (inactive) block (`deformBaseLocally`,
src/ladder/particles.ts lines 1083-1091):
`s = base.s * (1 + clamp(w, -0.40, 0.70))` ("smaller amplitude for base
grid"). -/
def baseWaveScale (baseS w : ℚ) : ℚ := baseS * (1 + clampQ w (-(2/5)) (7/10))

lemma clampQ_le_hi (v lo hi : ℚ) : clampQ v lo hi ≤ hi := min_le_right _ _

lemma lo_le_clampQ (v lo hi : ℚ) (h : lo ≤ hi) : lo ≤ clampQ v lo hi :=
  le_min (le_max_right _ _) h

lemma blockBaseScale_pos (cellH cellW : ℚ) (e : Bool) : 0 < blockBaseScale cellH cellW e := by
  have hs : (8/5 : ℚ) ≤ max (8/5) ((max (max (11/5) cellH) cellW) * (21/25)) := le_max_left _ _
  simp only [blockBaseScale]
  split <;> nlinarith

end NumberLineSpec

namespace NumberLineSpec

/-- C9: for every block and every wave value (any superposition of live
ripples), the ripple perturbation is a bounded multiplicative factor: the
wave is clamped to `[-0.70, 1.05]` for active blocks and `[-0.40, 0.70]`
for base blocks before being applied, so the drawn scale is strictly
positive (never negative) and never exceeds `2.05×` the block's base
scale (active: within `[0.30·s, 2.05·s]`; base: within `[0.60·s, 1.70·s]`). -/
theorem ripple_scale_bounded (cellH cellW : ℚ) (atChunkEdge : Bool) (w : ℚ) :
    0 < activeWaveScale (blockBaseScale cellH cellW atChunkEdge) w ∧
    activeWaveScale (blockBaseScale cellH cellW atChunkEdge) w ≤
      (41/20) * blockBaseScale cellH cellW atChunkEdge ∧
    0 < baseWaveScale (blockBaseScale cellH cellW atChunkEdge) w ∧
    baseWaveScale (blockBaseScale cellH cellW atChunkEdge) w ≤
      (41/20) * blockBaseScale cellH cellW atChunkEdge := by
  have hb := blockBaseScale_pos cellH cellW atChunkEdge
  set s := blockBaseScale cellH cellW atChunkEdge
  have ha1 : -(7/10 : ℚ) ≤ clampQ w (-(7/10)) (21/20) := lo_le_clampQ _ _ _ (by norm_num)
  have ha2 : clampQ w (-(7/10)) (21/20) ≤ 21/20 := clampQ_le_hi _ _ _
  have hb1 : -(2/5 : ℚ) ≤ clampQ w (-(2/5)) (7/10) := lo_le_clampQ _ _ _ (by norm_num)
  have hb2 : clampQ w (-(2/5)) (7/10) ≤ 7/10 := clampQ_le_hi _ _ _
  refine ⟨?_, ?_, ?_, ?_⟩ <;> simp only [activeWaveScale, baseWaveScale] <;> nlinarith

end NumberLineSpec

namespace NumberLineSpec

/-!
## Ripple list bound (src/ladder/particles.ts `addRipple` lines 376-384,
`requestFrame` pruning lines 437-440)
-/

/-- A stored ripple: `{x, y, start}` (y already converted to y-up). -/
structure Ripple where
  x : ℚ
  y : ℚ
  start : ℚ
  deriving DecidableEq, Repr

/-- The ripple-related state of `ParticleBlocks`. -/
structure RippleState where
  ripples : List Ripple
  ripplesEnabled : Bool
  lowEnd : Bool
  width : ℚ
  height : ℚ
  deriving DecidableEq, Repr

/-- `addRipple(x, y)` (src/ladder/particles.ts lines 376-384): a no-op
when ripples are disabled; otherwise pushes the point (converted to y-up)
and its mirror about the horizontal center (`width - x`), both with the
same start time, then drops the oldest entries (`splice(0, len - max)`)
whenever the list exceeds `maxRipples = lowEnd ? 8 : 16`. -/
def addRipple (st : RippleState) (x y now : ℚ) : RippleState :=
  if st.ripplesEnabled = false then st
  else
    let yUp := st.height - y
    let rs := st.ripples ++ [⟨x, yUp, now⟩, ⟨st.width - x, yUp, now⟩]
    let maxRipples : ℕ := if st.lowEnd then 8 else 16
    { st with ripples := if maxRipples < rs.length then rs.drop (rs.length - maxRipples) else rs }

/-- The per-frame pruning in `requestFrame` (src/ladder/particles.ts lines
437-440): `ripples = ripples.filter(r => t - r.start < life)` with
`life = Math.hypot(width, height) / rippleSpeedPx + 1.2` (the irrational
`hypot` is abstracted as the parameter `life`). -/
def pruneRipples (st : RippleState) (t life : ℚ) : RippleState :=
  { st with ripples := st.ripples.filter (fun r => t - r.start < life) }

end NumberLineSpec

namespace NumberLineSpec

/-- C10 counterexample: when ripples are disabled (`setRipplesEnabled
(false)`, lines 263-273), `addRipple` is a no-op: it appends zero ripples,
not two. -/
theorem addRipple_disabled_counterexample :
    (addRipple ⟨[], false, false, 100, 50⟩ 10 20 5).ripples.length = 0 ∧
    (addRipple ⟨[], false, false, 100, 50⟩ 10 20 5).ripples.length ≠
      (⟨[], false, false, 100, 50⟩ : RippleState).ripples.length + 2 := by
  constructor
  · rfl
  · intro h
    rw [show (addRipple ⟨[], false, false, 100, 50⟩ 10 20 5).ripples.length = 0 from rfl] at h
    simp at h

/-- C10 (amended): when ripples are enabled, every `addRipple(x, y)`
appends exactly two ripples — the point and its reflection about the
horizontal center, with the same start time — and then removes the oldest
entries so that the list never holds more than 16 ripples (8 on low-end
devices): the new length is exactly `min(old + 2, cap)`, the two new
ripples survive at the end of the list, and the whole operation never
leaves the list above the cap; when ripples are disabled `addRipple` is a
no-op.  Additionally, the per-frame pruning removes every ripple whose age
reaches `life` (`diagonal / rippleSpeed + 1.2` seconds), so every stored
ripple is younger than `life` after each frame and the list never grows
from pruning. -/
theorem ripple_list_bounded (st : RippleState) (x y now t life : ℚ) :
    (st.ripplesEnabled = true →
      (addRipple st x y now).ripples.length =
        min (st.ripples.length + 2) (if st.lowEnd then 8 else 16) ∧
      (addRipple st x y now).ripples.length ≤ (if st.lowEnd then 8 else 16) ∧
      ∃ pre : List Ripple,
        (addRipple st x y now).ripples =
          pre ++ [⟨x, st.height - y, now⟩, ⟨st.width - x, st.height - y, now⟩]) ∧
    (st.ripplesEnabled = false → addRipple st x y now = st) ∧
    ((∀ r ∈ (pruneRipples st t life).ripples, t - r.start < life) ∧
      (pruneRipples st t life).ripples.length ≤ st.ripples.length) := by
  refine ⟨?_, ?_, ?_, ?_⟩
  · intro hen
    have hcap2 : 2 ≤ (if st.lowEnd then 8 else 16 : ℕ) := by split <;> norm_num
    set cap : ℕ := if st.lowEnd then 8 else 16 with hcap
    set p1 : Ripple := ⟨x, st.height - y, now⟩
    set p2 : Ripple := ⟨st.width - x, st.height - y, now⟩
    set rs : List Ripple := st.ripples ++ [p1, p2] with hrs
    have hlen : rs.length = st.ripples.length + 2 := by
      simp [hrs]
    have haddr : (addRipple st x y now).ripples =
        if cap < rs.length then rs.drop (rs.length - cap) else rs := by
      simp only [addRipple, hen]
      rfl
    refine ⟨?_, ?_, ?_⟩
    · rw [haddr]
      split
      · rename_i hlt
        rw [List.length_drop]
        omega
      · rename_i hge
        rw [hlen]
        omega
    · rw [haddr]
      split
      · rename_i hlt
        rw [List.length_drop]
        omega
      · rename_i hge
        omega
    · rw [haddr]
      split
      · rename_i hlt
        have hd : rs.length - cap ≤ st.ripples.length := by omega
        refine ⟨st.ripples.drop (rs.length - cap), ?_⟩
        rw [hrs, List.drop_append_of_le_length hd]
      · exact ⟨st.ripples, rfl⟩
  · intro hdis
    simp [addRipple, hdis]
  · intro r hr
    simp only [pruneRipples, List.mem_filter] at hr
    exact of_decide_eq_true hr.2
  · simp only [pruneRipples]
    exact List.length_filter_le _ _

/-- Witness for `ripple_list_bounded`: a concrete enabled state on a
100×50 canvas with an empty list — `addRipple(10, 20)` at time 5 yields
exactly the two mirrored ripples and a pruning pass at a later time keeps
only young ripples. -/
theorem ripple_list_bounded_witness :
    (addRipple ⟨[], true, false, 100, 50⟩ 10 20 5).ripples.length = min (0 + 2) 16 ∧
    (addRipple ⟨[], true, false, 100, 50⟩ 10 20 5).ripples.length ≤ 16 ∧
    (∀ r ∈ (pruneRipples ⟨[⟨1, 2, 0⟩], true, false, 100, 50⟩ 10 3).ripples, (10:ℚ) - r.start < 3) := by
  have h1 := (ripple_list_bounded ⟨[], true, false, 100, 50⟩ 10 20 5 0 0).1 rfl
  have h2 := (ripple_list_bounded ⟨[⟨1, 2, 0⟩], true, false, 100, 50⟩ 0 0 0 10 3).2.2.1
  exact ⟨h1.1, h1.2.1, h2⟩

end NumberLineSpec

namespace NumberLineSpec

/-!
## Dual-field renderer state and transitions (src/ladder/particles.ts)

The renderer state relevant to transitions: per-field visibility, group
scale (represented by its base-10 exponent `scaleExp`, so "scale 1" is
`scaleExp = 0` and the 10× cross-zoom scales are linear in the exponent),
material alpha multiplier, and active instance counts.  Ripple deformation
(`updateRippleMatrices` / `deformBaseLocally`) perturbs per-instance
matrices only — never visibility, group scale, counts or the transition —
and is modelled separately (`activeWaveScale` / `baseWaveScale`). -/

/-- Observable state of one field buffer (a `fields[i]` entry). -/
structure Fld where
  visible : Bool
  scaleExp : ℚ
  alphaMul : ℚ
  negCount : ℤ
  posCount : ℤ
  deriving DecidableEq, Repr

/-- The `kTransition` record (src/ladder/particles.ts lines 50-61). -/
structure KTrans where
  fromField : Bool
  toField : Bool
  singleField : Bool
  dir : ℤ
  startMs : ℚ
  durMs : ℚ
  fromParams : BlockParams
  toParams : BlockParams
  deriving DecidableEq, Repr

/-- The transition-relevant state of `ParticleBlocks` (webgl mode):
two field buffers indexed by a `Bool`, the active-field index, the
at-most-one pending transition (`Option`), and the current params. -/
structure PBState where
  activeField : Bool
  lowEnd : Bool
  field0 : Fld
  field1 : Fld
  kTransition : Option KTrans
  params : Option BlockParams
  deriving DecidableEq, Repr

def getFld (st : PBState) (i : Bool) : Fld :=
  if i then st.field1 else st.field0

def setFld (st : PBState) (i : Bool) (f : Fld) : PBState :=
  if i then { st with field1 := f } else { st with field0 := f }

/-- `easeInOutCubic(t)` (src/ladder/particles.ts lines 1172-1174). -/
def easeInOutCubic (t : ℚ) : ℚ :=
  if t < 1/2 then 4 * t^3 else 1 - (-2*t + 2)^3 / 2

/-- `smoothstep(edge0, edge1, x)` (src/ladder/particles.ts lines
1202-1205). -/
def smoothstep (e0 e1 x : ℚ) : ℚ :=
  let t := clampQ ((x - e0) / max (1/1000000) (e1 - e0)) 0 1
  t * t * (3 - 2*t)

/-- `ParticleBlocks.set(params)` (src/ladder/particles.ts lines 319-374),
state effects in webgl mode.  On the first call it initialises field 0 as
the only visible field with no transition.  When `params.k` changed it
*unconditionally replaces* `kTransition` with a fresh record (`fromField`
= current active field, `toField` = the other field — or the same field
on low-end devices (`singleField`), `dir = params.k > old.k ? 1 : -1`,
`startMs = now`, full duration `kAnimDurMs = 360`) and makes the involved
fields visible.  Finally `params` is replaced and, when a transition
targeting the same `k` is pending, its `toParams` is kept in sync. -/
def setStep (st : PBState) (p : BlockParams) (now : ℚ) : PBState :=
  match st.params with
  | none =>
    let st₁ := setFld (setFld st false { st.field0 with visible := true })
      true { st.field1 with visible := false }
    { st₁ with params := some p, activeField := false, kTransition := none }
  | some old =>
    let st₁ :=
      if old.k ≠ p.k then
        let dir : ℤ := if old.k < p.k then 1 else -1
        let fromField := st.activeField
        let singleField := st.lowEnd
        let toField := if singleField then fromField else !fromField
        let tr : KTrans := ⟨fromField, toField, singleField, dir, now, 360, old, p⟩
        let st' := setFld st toField { getFld st toField with visible := true }
        let st'' :=
          if singleField then st'
          else setFld st' fromField { getFld st' fromField with visible := true }
        { st'' with kTransition := some tr }
      else st
    let st₂ := { st₁ with params := some p }
    match st₂.kTransition with
    | some tr =>
      if p.k = tr.toParams.k then
        { st₂ with kTransition := some { tr with toParams := p } }
      else st₂
    | none => st₂

/-- What one render pass draws (before any end-of-transition reset):
which buffers are drawn, their scale exponents (drawn scale `10^exp`),
their alphas, and the incoming buffer's active counts. -/
structure FrameInfo where
  transitionActive : Bool
  fromDrawn : Bool
  toDrawn : Bool
  fromScaleExp : ℚ
  toScaleExp : ℚ
  fromAlpha : ℚ
  toAlpha : ℚ
  toNegCount : ℤ
  toPosCount : ℤ
  deriving DecidableEq, Repr

/-- `renderFrame(time)` (src/ladder/particles.ts lines 453-827), restricted
to its transition/visibility/scale/count state effects (webgl mode; the
ripple matrix updates are modelled separately).  During a transition
(lines 713-807): `t = clamp((now - startMs)/durMs, 0, 1)`,
`e = easeInOutCubic(t)`, `fromScale = 10^(-dir·t)`,
`toScale = 10^(dir·(1-t))` (raw `t`, per the source comment "Use raw `t`
for scale"), `mix = smoothstep(0.22, 0.78, e)`, counts of the incoming
field interpolated by `mix` and clamped to `[0, 10000]`
(`Math.round` = `round` here: both are floor(x + 1/2)).  A transition
whose clamped progress has reached 1 is discarded and the surviving field
is reset to scale 1, alpha 1 and the target counts; in the dual-field
path the other field is hidden and its scale reset.  With no transition
(lines 810-827) the active field alone is drawn at scale 1. -/
def renderFrameStep (st : PBState) (now : ℚ) : PBState × FrameInfo :=
  match st.params with
  | none => (st, ⟨false, false, false, 0, 0, 1, 1, 0, 0⟩)
  | some p =>
    match st.kTransition with
    | some tr =>
      let t := clampQ ((now - tr.startMs) / tr.durMs) 0 1
      let e := easeInOutCubic t
      let fromExp : ℚ := -(tr.dir : ℚ) * t
      let toExp : ℚ := (tr.dir : ℚ) * (1 - t)
      let mix := smoothstep (11/50) (39/50) e
      let fromCounts := applyCountsPair tr.fromParams
      let toCounts := applyCountsPair tr.toParams
      let interpNeg := clampInt
        (round ((fromCounts.1 : ℚ) + ((toCounts.1 : ℚ) - (fromCounts.1 : ℚ)) * mix)) 0 10000
      let interpPos := clampInt
        (round ((fromCounts.2 : ℚ) + ((toCounts.2 : ℚ) - (fromCounts.2 : ℚ)) * mix)) 0 10000
      if tr.singleField then
        let fld := { getFld st tr.fromField with
          visible := true, scaleExp := fromExp, alphaMul := 1,
          negCount := interpNeg, posCount := interpPos }
        let frame : FrameInfo := ⟨true, true, false, fromExp, toExp, 1, 1, interpNeg, interpPos⟩
        if 1 ≤ t then
          let fld' := { fld with
            scaleExp := 0, negCount := toCounts.1, posCount := toCounts.2 }
          ({ setFld st tr.fromField fld' with kTransition := none }, frame)
        else (setFld st tr.fromField fld, frame)
      else
        let fromFld := { getFld st tr.fromField with
          visible := true, scaleExp := fromExp, alphaMul := 1 - mix,
          negCount := fromCounts.1, posCount := fromCounts.2 }
        let st₁ := setFld st tr.fromField fromFld
        let toFld := { getFld st₁ tr.toField with
          visible := true, scaleExp := toExp, alphaMul := mix,
          negCount := interpNeg, posCount := interpPos }
        let st₂ := setFld st₁ tr.toField toFld
        let frame : FrameInfo :=
          ⟨true, true, true, fromExp, toExp, 1 - mix, mix, interpNeg, interpPos⟩
        if 1 ≤ t then
          let st₃ := { st₂ with activeField := tr.toField, kTransition := none }
          let other := !tr.toField
          let st₄ := setFld st₃ other
            { getFld st₃ other with visible := false, scaleExp := 0, alphaMul := 0 }
          let st₅ := setFld st₄ tr.toField
            { getFld st₄ tr.toField with
              scaleExp := 0, alphaMul := 1,
              negCount := toCounts.1, posCount := toCounts.2 }
          (st₅, frame)
        else (st₂, frame)
    | none =>
      let counts := applyCountsPair p
      let st₁ := setFld st st.activeField
        { getFld st st.activeField with
          visible := true, scaleExp := 0, alphaMul := 1,
          negCount := counts.1, posCount := counts.2 }
      let st₂ := setFld st₁ (!st.activeField)
        { getFld st₁ (!st.activeField) with visible := false }
      (st₂, ⟨false, false, true, 0, 0, 0, 1, counts.1, counts.2⟩)

/-- The transition arithmetic of the CPU 2D fallback `renderFrame2D`
(src/ladder/particles.ts lines 922-941): returns the drawn scale exponent
(`scale = 10^(-dir·t)`, a single scale since the 2D path draws one layout)
and the interpolated active counts. -/
def renderFrame2DCounts (p : BlockParams) (tr : Option KTrans) (nowMs : ℚ) : ℚ × ℤ × ℤ :=
  let base := counts2DPair p
  match tr with
  | none => (0, base.1, base.2)
  | some tr =>
    let t := clampQ ((nowMs - tr.startMs) / tr.durMs) 0 1
    let e := easeInOutCubic t
    let mix := smoothstep (11/50) (39/50) e
    let sExp : ℚ := -(tr.dir : ℚ) * t
    let toC := counts2DPair tr.toParams
    (sExp,
     clampInt (round ((base.1 : ℚ) + ((toC.1 : ℚ) - (base.1 : ℚ)) * mix)) 0 10000,
     clampInt (round ((base.2 : ℚ) + ((toC.2 : ℚ) - (base.2 : ℚ)) * mix)) 0 10000)

lemma getFld_setFld_same (st : PBState) (i : Bool) (f : Fld) :
    getFld (setFld st i f) i = f := by
  cases i <;> simp [getFld, setFld]

lemma getFld_setFld_ne (st : PBState) (i j : Bool) (f : Fld) (h : j ≠ i) :
    getFld (setFld st i f) j = getFld st j := by
  cases i <;> cases j <;> simp_all [getFld, setFld]

lemma setFld_kTransition (st : PBState) (i : Bool) (f : Fld) :
    (setFld st i f).kTransition = st.kTransition := by
  cases i <;> simp [setFld]

lemma setFld_activeField (st : PBState) (i : Bool) (f : Fld) :
    (setFld st i f).activeField = st.activeField := by
  cases i <;> simp [setFld]

lemma setFld_params (st : PBState) (i : Bool) (f : Fld) :
    (setFld st i f).params = st.params := by
  cases i <;> simp [setFld]

end NumberLineSpec

namespace NumberLineSpec

lemma clampQ_mem (v lo hi : ℚ) (h : lo ≤ hi) :
    lo ≤ clampQ v lo hi ∧ clampQ v lo hi ≤ hi :=
  ⟨lo_le_clampQ v lo hi h, clampQ_le_hi v lo hi⟩

lemma clampQ_eq_one_of_ge (r : ℚ) (h : 1 ≤ r) : clampQ r 0 1 = 1 := by
  simp only [clampQ]
  rw [max_eq_left (le_trans zero_le_one h)]
  exact min_eq_right h

lemma smoothstep_mem (e0 e1 x : ℚ) : 0 ≤ smoothstep e0 e1 x ∧ smoothstep e0 e1 x ≤ 1 := by
  simp only [smoothstep]
  have h := clampQ_mem ((x - e0) / max (1/1000000) (e1 - e0)) 0 1 zero_le_one
  set t := clampQ ((x - e0) / max (1/1000000) (e1 - e0)) 0 1
  obtain ⟨h0, h1⟩ := h
  constructor
  · nlinarith
  · nlinarith [sq_nonneg (1 - t)]

lemma easeInOutCubic_one : easeInOutCubic 1 = 1 := by
  norm_num [easeInOutCubic]

lemma smoothstep_one : smoothstep (11/50) (39/50) 1 = 1 := by
  simp only [smoothstep]
  have hmax : max ((1:ℚ)/1000000) (39/50 - 11/50) = 14/25 := by
    rw [max_eq_right] <;> norm_num
  rw [hmax]
  rw [clampQ_eq_one_of_ge _ (by norm_num)]
  norm_num

lemma round_intCast_q (a : ℤ) : round ((a : ℚ)) = a := round_intCast a

lemma round_between (a b : ℤ) (x : ℚ) (h1 : (a : ℚ) ≤ x) (h2 : x ≤ (b : ℚ)) :
    a ≤ round x ∧ round x ≤ b := by
  rw [round_eq]
  have ha : ⌊(a : ℚ) + 1/2⌋ = a + 0 := by
    rw [Int.floor_int_add]
    norm_num
  have hb : ⌊(b : ℚ) + 1/2⌋ = b + 0 := by
    rw [Int.floor_int_add]
    norm_num
  constructor
  · have hf : ⌊(a : ℚ) + 1/2⌋ ≤ ⌊x + 1/2⌋ := Int.floor_le_floor (by linarith)
    omega
  · have hf : ⌊x + 1/2⌋ ≤ ⌊(b : ℚ) + 1/2⌋ := Int.floor_le_floor (by linarith)
    omega

lemma clampInt_counts_mem (v : ℤ) : 0 ≤ clampInt v 0 10000 ∧ clampInt v 0 10000 ≤ 10000 :=
  ⟨le_min (le_max_right _ _) (by norm_num), min_le_right _ _⟩

lemma clampInt_eq_self (v : ℤ) (h0 : 0 ≤ v) (h1 : v ≤ 10000) : clampInt v 0 10000 = v := by
  simp only [clampInt]
  rw [max_eq_left h0, min_eq_left h1]

lemma interp_count_between (a b : ℤ) (m : ℚ) (hm0 : 0 ≤ m) (hm1 : m ≤ 1) :
    min a b ≤ round ((a : ℚ) + ((b : ℚ) - (a : ℚ)) * m) ∧
    round ((a : ℚ) + ((b : ℚ) - (a : ℚ)) * m) ≤ max a b := by
  rcases le_total a b with hab | hab
  · have h1 : (a : ℚ) ≤ (a : ℚ) + ((b : ℚ) - (a : ℚ)) * m := by
      have : (0:ℚ) ≤ ((b : ℚ) - (a : ℚ)) * m := by
        apply mul_nonneg _ hm0
        simp only [sub_nonneg, Int.cast_le]
        exact hab
      linarith
    have h2 : (a : ℚ) + ((b : ℚ) - (a : ℚ)) * m ≤ (b : ℚ) := by
      have hba : (0:ℚ) ≤ (b : ℚ) - (a : ℚ) := by
        simp only [sub_nonneg, Int.cast_le]
        exact hab
      nlinarith
    have := round_between a b _ h1 h2
    rw [min_eq_left hab, max_eq_right hab]
    exact this
  · have h1 : (b : ℚ) ≤ (a : ℚ) + ((b : ℚ) - (a : ℚ)) * m := by
      have hba : ((b : ℚ) - (a : ℚ)) ≤ 0 := by
        simp only [sub_nonpos, Int.cast_le]
        exact hab
      nlinarith
    have h2 : (a : ℚ) + ((b : ℚ) - (a : ℚ)) * m ≤ (a : ℚ) := by
      have hba : ((b : ℚ) - (a : ℚ)) ≤ 0 := by
        simp only [sub_nonpos, Int.cast_le]
        exact hab
      nlinarith
    have := round_between b a _ h1 h2
    rw [min_eq_right hab, max_eq_left hab]
    exact this

lemma applyCountsPair_mem (p : BlockParams) :
    (0 ≤ (applyCountsPair p).1 ∧ (applyCountsPair p).1 ≤ 10000) ∧
    (0 ≤ (applyCountsPair p).2 ∧ (applyCountsPair p).2 ≤ 10000) :=
  ⟨clampInt_counts_mem _, clampInt_counts_mem _⟩

/-- The full clamped transition progress is 1 once the elapsed time has
reached the duration. -/
lemma progress_one (startMs durMs now : ℚ) (hd : 0 < durMs) (h : durMs ≤ now - startMs) :
    clampQ ((now - startMs) / durMs) 0 1 = 1 :=
  clampQ_eq_one_of_ge _ ((one_le_div hd).mpr h)

end NumberLineSpec

namespace NumberLineSpec

lemma bool_not_ne (b : Bool) : (!b) ≠ b := by cases b <;> simp

lemma getFld_clearTrans (st : PBState) (o : Option KTrans) (i : Bool) :
    getFld { st with kTransition := o } i = getFld st i := by
  cases i <;> rfl

lemma getFld_setActiveTrans (st : PBState) (a : Bool) (o : Option KTrans) (i : Bool) :
    getFld { st with activeField := a, kTransition := o } i = getFld st i := by
  cases i <;> rfl

end NumberLineSpec

namespace NumberLineSpec

/-- C6: a Transition whose elapsed time has reached its duration is
discarded on the next render pass (`kTransition` becomes `none`), after
which exactly one field buffer is visible, at scale 1 (`scaleExp = 0`) —
on the dual-field path the incoming field is visible with scale reset and
the other field is hidden with scale reset, and the incoming field becomes
the active field; on the low-end single-field path the surviving field is
visible at scale 1 and the unused buffer stays hidden.  At most one
Transition exists at a time (`kTransition : Option KTrans` holds at most
one record), and `set()` with a changed level *replaces* any pending
transition immediately with a fresh full-duration transition starting at
the current time from the renderer's current active field. -/
theorem transition_termination :
    (∀ (st : PBState) (now : ℚ) (p : BlockParams) (tr : KTrans),
      st.params = some p → st.kTransition = some tr →
      0 < tr.durMs → tr.durMs ≤ now - tr.startMs →
      ((renderFrameStep st now).1.kTransition = none ∧
       (tr.singleField = false →
         (getFld (renderFrameStep st now).1 tr.toField).visible = true ∧
         (getFld (renderFrameStep st now).1 tr.toField).scaleExp = 0 ∧
         (getFld (renderFrameStep st now).1 (!tr.toField)).visible = false ∧
         (getFld (renderFrameStep st now).1 (!tr.toField)).scaleExp = 0 ∧
         (renderFrameStep st now).1.activeField = tr.toField) ∧
       (tr.singleField = true → (getFld st (!tr.fromField)).visible = false →
         (getFld (renderFrameStep st now).1 tr.fromField).visible = true ∧
         (getFld (renderFrameStep st now).1 tr.fromField).scaleExp = 0 ∧
         (getFld (renderFrameStep st now).1 (!tr.fromField)).visible = false))) ∧
    (∀ (st : PBState) (old p : BlockParams) (now : ℚ),
      st.params = some old → old.k ≠ p.k →
      (setStep st p now).kTransition = some
        ⟨st.activeField,
         (if st.lowEnd then st.activeField else !st.activeField),
         st.lowEnd,
         (if old.k < p.k then 1 else -1),
         now, 360, old, p⟩) := by
  constructor
  · intro st now p tr hp htr hd he
    have ht1 : clampQ ((now - tr.startMs) / tr.durMs) 0 1 = 1 :=
      progress_one _ _ _ hd he
    cases hsf : tr.singleField
    · -- dual-field path
      cases htf : tr.toField <;>
        cases hff : tr.fromField <;>
        · simp only [renderFrameStep, hp, htr, hsf, htf, hff, ht1, le_refl,
            if_true, Bool.false_eq_true, Bool.true_eq_false, if_false, getFld,
            setFld, Bool.not_false, Bool.not_true]
          exact ⟨trivial, fun _ => ⟨trivial, trivial, trivial, trivial, trivial⟩,
            fun hc => absurd hc (by simp)⟩
    · -- single-field (low-end) path
      cases hff : tr.fromField <;>
        · simp only [renderFrameStep, hp, htr, hsf, hff, ht1, le_refl,
            if_true, Bool.false_eq_true, Bool.true_eq_false, if_false, getFld,
            setFld, Bool.not_false, Bool.not_true]
          exact ⟨trivial, fun hc => absurd hc (by simp),
            fun _ hhid => ⟨trivial, trivial, hhid⟩⟩
  · intro st old p now hp hk
    simp only [setStep, hp, if_pos hk]
    rfl

/-- Witness for `transition_termination`: a concrete finished dual-field
transition is discarded on the next pass with the incoming buffer the only
visible one at scale 1, and a concrete `set()` level change installs the
expected fresh transition. -/
theorem transition_termination_witness :
    ((renderFrameStep
        ⟨false, false, ⟨true, 0, 1, 0, 0⟩, ⟨true, 1, 0, 0, 0⟩,
         some ⟨false, true, false, 1, 0, 360, ⟨800, 400, 0, 400, 0, 0, 0, 0⟩,
           ⟨800, 400, 1, 400, 0, 0, 0, 0⟩⟩,
         some ⟨800, 400, 1, 400, 0, 0, 0, 0⟩⟩ 500).1.kTransition = none) ∧
    ((setStep
        ⟨false, false, ⟨true, 0, 1, 0, 0⟩, ⟨false, 0, 1, 0, 0⟩, none,
         some ⟨800, 400, 0, 400, 0, 0, 0, 0⟩⟩
        ⟨800, 400, 1, 400, 0, 0, 0, 0⟩ 1000).kTransition = some
      ⟨false, true, false, 1, 1000, 360, ⟨800, 400, 0, 400, 0, 0, 0, 0⟩,
       ⟨800, 400, 1, 400, 0, 0, 0, 0⟩⟩) := by
  constructor
  · exact (transition_termination.1
      ⟨false, false, ⟨true, 0, 1, 0, 0⟩, ⟨true, 1, 0, 0, 0⟩,
       some ⟨false, true, false, 1, 0, 360, ⟨800, 400, 0, 400, 0, 0, 0, 0⟩,
         ⟨800, 400, 1, 400, 0, 0, 0, 0⟩⟩,
       some ⟨800, 400, 1, 400, 0, 0, 0, 0⟩⟩ 500
      ⟨800, 400, 1, 400, 0, 0, 0, 0⟩
      ⟨false, true, false, 1, 0, 360, ⟨800, 400, 0, 400, 0, 0, 0, 0⟩,
       ⟨800, 400, 1, 400, 0, 0, 0, 0⟩⟩
      rfl rfl (by norm_num) (by norm_num)).1
  · exact transition_termination.2
      ⟨false, false, ⟨true, 0, 1, 0, 0⟩, ⟨false, 0, 1, 0, 0⟩, none,
       some ⟨800, 400, 0, 400, 0, 0, 0, 0⟩⟩
      ⟨800, 400, 0, 400, 0, 0, 0, 0⟩ ⟨800, 400, 1, 400, 0, 0, 0, 0⟩ 1000
      rfl (by norm_num)

end NumberLineSpec

namespace NumberLineSpec

lemma counts2DPair_mem (p : BlockParams) :
    (0 ≤ (counts2DPair p).1 ∧ (counts2DPair p).1 ≤ 10000) ∧
    (0 ≤ (counts2DPair p).2 ∧ (counts2DPair p).2 ≤ 10000) :=
  ⟨clampInt_counts_mem _, clampInt_counts_mem _⟩

end NumberLineSpec

namespace NumberLineSpec

/-- C5 counterexample: during a transition the field scales use the *raw*
linear progress `t`, not the eased progress.  At `t = 1/4` (90ms into a
360ms step, `dir = +1`) the outgoing buffer's scale is `10^(-1/4)`
(exponent `-1/4`), whereas the claimed `10^(-direction·easedProgress)`
would be `10^(-1/16)` (`easeInOutCubic(1/4) = 1/16`); since `x ↦ 10^x` is
injective, the drawn scale differs from the claimed one. -/
theorem transition_scale_uses_raw_progress :
    (renderFrameStep
      ⟨false, false, ⟨true, 0, 1, 0, 0⟩, ⟨false, 0, 1, 0, 0⟩,
       some ⟨false, true, false, 1, 0, 360, ⟨800, 400, 0, 400, 0, 0, 0, 0⟩,
         ⟨800, 400, 1, 400, 0, 0, 0, 0⟩⟩,
       some ⟨800, 400, 1, 400, 0, 0, 0, 0⟩⟩ 90).2.fromScaleExp = -(1/4) ∧
    easeInOutCubic (clampQ (((90 : ℚ) - 0) / 360) 0 1) = 1/16 ∧
    -(1/4 : ℚ) ≠ -(1 : ℚ) * easeInOutCubic (clampQ (((90 : ℚ) - 0) / 360) 0 1) := by
  have hc : clampQ (((90 : ℚ) - 0) / 360) 0 1 = 1/4 := by
    rw [show ((90 : ℚ) - 0) / 360 = 1/4 by norm_num]
    simp only [clampQ]
    rw [max_eq_left (by norm_num), min_eq_left (by norm_num)]
  have he : easeInOutCubic (clampQ (((90 : ℚ) - 0) / 360) 0 1) = 1/16 := by
    rw [hc]
    norm_num [easeInOutCubic]
  refine ⟨?_, he, ?_⟩
  · simp only [renderFrameStep, hc]
    norm_num
  · rw [he]
    norm_num

/-- C5 (amended): while a transition is active on the standard dual-field
path, both field buffers are drawn simultaneously — the outgoing buffer at
scale `10^(-direction·t)` and fading out, the incoming buffer at scale
`10^(direction·(1-t))` and fading in, where `t` is the *raw* clamped
linear progress (easing is applied only to the alpha crossfade and the
count interpolation window, not to the scales); the two alphas always sum
to 1; the incoming buffer's active counts are interpolated toward their
targets (always between the outgoing and target counts — never snapping
past them) and reach the targets exactly when the elapsed time reaches the
duration.  The log-scale difference between the two buffers is the
constant `-direction` throughout, so the field scale factor relative to
the other field is exactly `10^∓1` at the start and end of the step (and
indeed at every instant).  The CPU 2D fallback draws its single layout at
the same raw-progress scale `10^(-direction·t)` with the same
interpolated-count formula.  (On low-end devices — `singleField` — only
one buffer is drawn; scales and counts behave the same.) -/
theorem transition_cross_zoom (st : PBState) (now : ℚ) (p : BlockParams) (tr : KTrans)
    (hp : st.params = some p) (htr : st.kTransition = some tr)
    (hsf : tr.singleField = false) :
    (renderFrameStep st now).2.fromDrawn = true ∧
    (renderFrameStep st now).2.toDrawn = true ∧
    (renderFrameStep st now).2.fromScaleExp =
      -(tr.dir : ℚ) * clampQ ((now - tr.startMs) / tr.durMs) 0 1 ∧
    (renderFrameStep st now).2.toScaleExp =
      (tr.dir : ℚ) * (1 - clampQ ((now - tr.startMs) / tr.durMs) 0 1) ∧
    (renderFrameStep st now).2.fromScaleExp - (renderFrameStep st now).2.toScaleExp =
      -(tr.dir : ℚ) ∧
    (renderFrameStep st now).2.fromAlpha + (renderFrameStep st now).2.toAlpha = 1 ∧
    (renderFrameStep st now).2.toNegCount =
      clampInt (round (((applyCountsPair tr.fromParams).1 : ℚ) +
        (((applyCountsPair tr.toParams).1 : ℚ) - ((applyCountsPair tr.fromParams).1 : ℚ)) *
          smoothstep (11/50) (39/50)
            (easeInOutCubic (clampQ ((now - tr.startMs) / tr.durMs) 0 1)))) 0 10000 ∧
    min (applyCountsPair tr.fromParams).1 (applyCountsPair tr.toParams).1 ≤
      (renderFrameStep st now).2.toNegCount ∧
    (renderFrameStep st now).2.toNegCount ≤
      max (applyCountsPair tr.fromParams).1 (applyCountsPair tr.toParams).1 ∧
    min (applyCountsPair tr.fromParams).2 (applyCountsPair tr.toParams).2 ≤
      (renderFrameStep st now).2.toPosCount ∧
    (renderFrameStep st now).2.toPosCount ≤
      max (applyCountsPair tr.fromParams).2 (applyCountsPair tr.toParams).2 ∧
    (0 < tr.durMs → tr.durMs ≤ now - tr.startMs →
      (renderFrameStep st now).2.toNegCount = (applyCountsPair tr.toParams).1 ∧
      (renderFrameStep st now).2.toPosCount = (applyCountsPair tr.toParams).2) ∧
    (renderFrame2DCounts p (some tr) now).1 =
      -(tr.dir : ℚ) * clampQ ((now - tr.startMs) / tr.durMs) 0 1 ∧
    (0 < tr.durMs → tr.durMs ≤ now - tr.startMs →
      (renderFrame2DCounts p (some tr) now).2.1 = (counts2DPair tr.toParams).1 ∧
      (renderFrame2DCounts p (some tr) now).2.2 = (counts2DPair tr.toParams).2) := by
  have hframe : (renderFrameStep st now).2 =
      ⟨true, true, true,
       -(tr.dir : ℚ) * clampQ ((now - tr.startMs) / tr.durMs) 0 1,
       (tr.dir : ℚ) * (1 - clampQ ((now - tr.startMs) / tr.durMs) 0 1),
       1 - smoothstep (11/50) (39/50)
         (easeInOutCubic (clampQ ((now - tr.startMs) / tr.durMs) 0 1)),
       smoothstep (11/50) (39/50)
         (easeInOutCubic (clampQ ((now - tr.startMs) / tr.durMs) 0 1)),
       clampInt (round (((applyCountsPair tr.fromParams).1 : ℚ) +
         (((applyCountsPair tr.toParams).1 : ℚ) - ((applyCountsPair tr.fromParams).1 : ℚ)) *
           smoothstep (11/50) (39/50)
             (easeInOutCubic (clampQ ((now - tr.startMs) / tr.durMs) 0 1)))) 0 10000,
       clampInt (round (((applyCountsPair tr.fromParams).2 : ℚ) +
         (((applyCountsPair tr.toParams).2 : ℚ) - ((applyCountsPair tr.fromParams).2 : ℚ)) *
           smoothstep (11/50) (39/50)
             (easeInOutCubic (clampQ ((now - tr.startMs) / tr.durMs) 0 1)))) 0 10000⟩ := by
    simp only [renderFrameStep, hp, htr, hsf, Bool.false_eq_true, if_false]
    split <;> rfl
  obtain ⟨hm0, hm1⟩ := smoothstep_mem (11/50) (39/50)
    (easeInOutCubic (clampQ ((now - tr.startMs) / tr.durMs) 0 1))
  obtain ⟨⟨ha10, ha1u⟩, ⟨ha20, ha2u⟩⟩ := applyCountsPair_mem tr.fromParams
  obtain ⟨⟨hb10, hb1u⟩, ⟨hb20, hb2u⟩⟩ := applyCountsPair_mem tr.toParams
  have hr1 := interp_count_between (applyCountsPair tr.fromParams).1
    (applyCountsPair tr.toParams).1
    (smoothstep (11/50) (39/50)
      (easeInOutCubic (clampQ ((now - tr.startMs) / tr.durMs) 0 1))) hm0 hm1
  have hr2 := interp_count_between (applyCountsPair tr.fromParams).2
    (applyCountsPair tr.toParams).2
    (smoothstep (11/50) (39/50)
      (easeInOutCubic (clampQ ((now - tr.startMs) / tr.durMs) 0 1))) hm0 hm1
  have hcn1 := clampInt_eq_self _ (le_trans (le_min ha10 hb10) hr1.1)
    (le_trans hr1.2 (max_le ha1u hb1u))
  have hcn2 := clampInt_eq_self _ (le_trans (le_min ha20 hb20) hr2.1)
    (le_trans hr2.2 (max_le ha2u hb2u))
  refine ⟨by rw [hframe], by rw [hframe], by rw [hframe], by rw [hframe],
    by rw [hframe]; ring, by rw [hframe]; ring, by rw [hframe],
    ?_, ?_, ?_, ?_, ?_, ?_, ?_⟩
  · rw [hframe]
    show min _ _ ≤ clampInt _ 0 10000
    rw [hcn1]
    exact hr1.1
  · rw [hframe]
    show clampInt _ 0 10000 ≤ max _ _
    rw [hcn1]
    exact hr1.2
  · rw [hframe]
    show min _ _ ≤ clampInt _ 0 10000
    rw [hcn2]
    exact hr2.1
  · rw [hframe]
    show clampInt _ 0 10000 ≤ max _ _
    rw [hcn2]
    exact hr2.2
  · intro hd he
    have ht1 : clampQ ((now - tr.startMs) / tr.durMs) 0 1 = 1 :=
      progress_one _ _ _ hd he
    rw [hframe]
    show (clampInt _ 0 10000 = _) ∧ (clampInt _ 0 10000 = _)
    rw [ht1, easeInOutCubic_one, smoothstep_one]
    constructor
    · rw [show ((applyCountsPair tr.fromParams).1 : ℚ) +
        (((applyCountsPair tr.toParams).1 : ℚ) - ((applyCountsPair tr.fromParams).1 : ℚ)) * 1 =
        ((applyCountsPair tr.toParams).1 : ℚ) from by ring, round_intCast]
      exact clampInt_eq_self _ hb10 hb1u
    · rw [show ((applyCountsPair tr.fromParams).2 : ℚ) +
        (((applyCountsPair tr.toParams).2 : ℚ) - ((applyCountsPair tr.fromParams).2 : ℚ)) * 1 =
        ((applyCountsPair tr.toParams).2 : ℚ) from by ring, round_intCast]
      exact clampInt_eq_self _ hb20 hb2u
  · rfl
  · intro hd he
    have ht1 : clampQ ((now - tr.startMs) / tr.durMs) 0 1 = 1 :=
      progress_one _ _ _ hd he
    obtain ⟨⟨hc10, hc1u⟩, ⟨hc20, hc2u⟩⟩ := counts2DPair_mem p
    obtain ⟨⟨hd10, hd1u⟩, ⟨hd20, hd2u⟩⟩ := counts2DPair_mem tr.toParams
    constructor
    · show clampInt (round (((counts2DPair p).1 : ℚ) +
        (((counts2DPair tr.toParams).1 : ℚ) - ((counts2DPair p).1 : ℚ)) *
          smoothstep (11/50) (39/50)
            (easeInOutCubic (clampQ ((now - tr.startMs) / tr.durMs) 0 1)))) 0 10000 = _
      rw [ht1, easeInOutCubic_one, smoothstep_one]
      rw [show ((counts2DPair p).1 : ℚ) +
        (((counts2DPair tr.toParams).1 : ℚ) - ((counts2DPair p).1 : ℚ)) * 1 =
        ((counts2DPair tr.toParams).1 : ℚ) from by ring, round_intCast]
      exact clampInt_eq_self _ hd10 hd1u
    · show clampInt (round (((counts2DPair p).2 : ℚ) +
        (((counts2DPair tr.toParams).2 : ℚ) - ((counts2DPair p).2 : ℚ)) *
          smoothstep (11/50) (39/50)
            (easeInOutCubic (clampQ ((now - tr.startMs) / tr.durMs) 0 1)))) 0 10000 = _
      rw [ht1, easeInOutCubic_one, smoothstep_one]
      rw [show ((counts2DPair p).2 : ℚ) +
        (((counts2DPair tr.toParams).2 : ℚ) - ((counts2DPair p).2 : ℚ)) * 1 =
        ((counts2DPair tr.toParams).2 : ℚ) from by ring, round_intCast]
      exact clampInt_eq_self _ hd20 hd2u

/-- Witness for `transition_cross_zoom` at a concrete mid-transition state
(`dir = +1`, 360ms duration, sampled at its end): both buffers drawn and
the log-scale gap between the buffers is exactly `-1` (ratio `10^-1`). -/
theorem transition_cross_zoom_witness :
    (renderFrameStep
      ⟨false, false, ⟨true, 0, 1, 0, 0⟩, ⟨false, 0, 1, 0, 0⟩,
       some ⟨false, true, false, 1, 0, 360, ⟨800, 400, 0, 400, 0, 0, 0, 0⟩,
         ⟨800, 400, 1, 400, 0, 0, 0, 0⟩⟩,
       some ⟨800, 400, 1, 400, 0, 0, 0, 0⟩⟩ 360).2.fromDrawn = true ∧
    (renderFrameStep
      ⟨false, false, ⟨true, 0, 1, 0, 0⟩, ⟨false, 0, 1, 0, 0⟩,
       some ⟨false, true, false, 1, 0, 360, ⟨800, 400, 0, 400, 0, 0, 0, 0⟩,
         ⟨800, 400, 1, 400, 0, 0, 0, 0⟩⟩,
       some ⟨800, 400, 1, 400, 0, 0, 0, 0⟩⟩ 360).2.toDrawn = true ∧
    (renderFrameStep
      ⟨false, false, ⟨true, 0, 1, 0, 0⟩, ⟨false, 0, 1, 0, 0⟩,
       some ⟨false, true, false, 1, 0, 360, ⟨800, 400, 0, 400, 0, 0, 0, 0⟩,
         ⟨800, 400, 1, 400, 0, 0, 0, 0⟩⟩,
       some ⟨800, 400, 1, 400, 0, 0, 0, 0⟩⟩ 360).2.fromScaleExp -
    (renderFrameStep
      ⟨false, false, ⟨true, 0, 1, 0, 0⟩, ⟨false, 0, 1, 0, 0⟩,
       some ⟨false, true, false, 1, 0, 360, ⟨800, 400, 0, 400, 0, 0, 0, 0⟩,
         ⟨800, 400, 1, 400, 0, 0, 0, 0⟩⟩,
       some ⟨800, 400, 1, 400, 0, 0, 0, 0⟩⟩ 360).2.toScaleExp = -((1 : ℤ) : ℚ) := by
  have h := transition_cross_zoom
    ⟨false, false, ⟨true, 0, 1, 0, 0⟩, ⟨false, 0, 1, 0, 0⟩,
     some ⟨false, true, false, 1, 0, 360, ⟨800, 400, 0, 400, 0, 0, 0, 0⟩,
       ⟨800, 400, 1, 400, 0, 0, 0, 0⟩⟩,
     some ⟨800, 400, 1, 400, 0, 0, 0, 0⟩⟩ 360
    ⟨800, 400, 1, 400, 0, 0, 0, 0⟩
    ⟨false, true, false, 1, 0, 360, ⟨800, 400, 0, 400, 0, 0, 0, 0⟩,
     ⟨800, 400, 1, 400, 0, 0, 0, 0⟩⟩ rfl rfl rfl
  exact ⟨h.1, h.2.1, h.2.2.2.2.1⟩

end NumberLineSpec
